import Mathlib

/-!
Verification of the `custom_cross_section` routine
(`def_custom_cross_section.py`): a shallow embedding of the geodesy
primitives, the path builder, the spatial pre-filter, the per-slice
scattered interpolation loop and the output assembler, over exact real
arithmetic.  Floating point is idealised as `ℝ`; a missing value (NaN)
in a data field is modelled as `Option.none`; the scipy `griddata`
scattered interpolator is an abstract function parameter, except for
its documented rejection of unknown method strings, which is modelled
explicitly.  The embedding also records, in order, which major
computation phases a call performs before returning or failing, so
that statements about *when* an error is raised can be made precise.
-/

namespace CrossSec

noncomputable section

open Real

/-- `np.radians`: degrees to radians. -/
def radiansOf (x : ℝ) : ℝ := x * (Real.pi / 180)

/-- `np.degrees`: radians to degrees. -/
def degreesOf (x : ℝ) : ℝ := x * (180 / Real.pi)

/-- `np.arctan2 y x`: the standard piecewise definition of the
two-argument arctangent (angle of the vector `(x, y)`, in `(-π, π]`). -/
def atan2 (y x : ℝ) : ℝ :=
  if 0 < x then Real.arctan (y / x)
  else if x < 0 then
    (if 0 ≤ y then Real.arctan (y / x) + Real.pi else Real.arctan (y / x) - Real.pi)
  else
    (if 0 < y then Real.pi / 2 else if y < 0 then -(Real.pi / 2) else 0)

/-- `x % m` for real operands with numpy semantics (result has the sign
of the divisor): `x - m * ⌊x / m⌋`. -/
def modReal (x m : ℝ) : ℝ := x - m * (⌊x / m⌋ : ℤ)

/-- `haversine_distance` (source lines 49–57): great-circle distance in
km between two (lat, lon) points given in degrees, Earth radius 6371 km. -/
def haversine_distance (lat1 lon1 lat2 lon2 : ℝ) : ℝ :=
  let l1 := radiansOf lat1
  let o1 := radiansOf lon1
  let l2 := radiansOf lat2
  let o2 := radiansOf lon2
  let dlat := l2 - l1
  let dlon := o2 - o1
  let a := Real.sin (dlat / 2) ^ 2 +
    Real.cos l1 * Real.cos l2 * Real.sin (dlon / 2) ^ 2
  let c := 2 * Real.arcsin (Real.sqrt a)
  6371 * c

/-- `haversine_distance_vectorized` (source lines 60–77): broadcast
pairwise haversine distances; first point set `(lat1, lon1)` has n
points, second `(lat2, lon2)` has m points; the result is the m × n
matrix (row index over the second set, column index over the first). -/
def haversine_distance_vectorized (lat1 lon1 lat2 lon2 : List ℝ) : List (List ℝ) :=
  (lat2.zip lon2).map (fun p2 =>
    (lat1.zip lon1).map (fun p1 =>
      let dlat := radiansOf p2.1 - radiansOf p1.1
      let dlon := radiansOf p2.2 - radiansOf p1.2
      let a := Real.sin (dlat / 2) ^ 2 +
        Real.cos (radiansOf p1.1) * Real.cos (radiansOf p2.1) * Real.sin (dlon / 2) ^ 2
      6371 * (2 * Real.arcsin (Real.sqrt a))))

/-- `calculate_orientation_angle_spherical` (source lines 80–112):
true initial bearing converted to orientation from East,
counter-clockwise, normalised to [0, 360). -/
def calculate_orientation_angle_spherical (lat1 lon1 lat2 lon2 : ℝ) : ℝ :=
  let l1 := radiansOf lat1
  let o1 := radiansOf lon1
  let l2 := radiansOf lat2
  let o2 := radiansOf lon2
  let dlon := o2 - o1
  let y := Real.sin dlon * Real.cos l2
  let x := Real.cos l1 * Real.sin l2 - Real.sin l1 * Real.cos l2 * Real.cos dlon
  let bearing_from_north := degreesOf (atan2 y x)
  modReal (90 - bearing_from_north) 360

/-- `calculate_orientation_angle_cartesian` (source lines 114–138):
planar-approximation orientation from East, counter-clockwise,
normalised to [0, 360). -/
def calculate_orientation_angle_cartesian (lat1 lon1 lat2 lon2 : ℝ) : ℝ :=
  let dlat := lat2 - lat1
  let dlon := lon2 - lon1
  modReal (degreesOf (atan2 dlat dlon)) 360

/-- `np.linspace a b steps`: `steps` evenly spaced samples from `a`
to `b` inclusive. -/
def linspace (a b : ℝ) (steps : Nat) : List ℝ :=
  (List.range steps).map (fun i : Nat => a + (i : ℝ) * (b - a) / ((steps - 1 : Nat) : ℝ))

/-- Cumulative along-path distance at index `i` (source lines 173–179):
`0` at the start, each later value adds the haversine length of the
segment from the previous point.  Indices used by the source loop are
always in range; out-of-range reads default to 0 here. -/
def cumDistAt (lats lons : List ℝ) : Nat → ℝ
  | 0 => 0
  | Nat.succ i => cumDistAt lats lons i +
      haversine_distance (lats.getD i 0) (lons.getD i 0)
        (lats.getD (i + 1) 0) (lons.getD (i + 1) 0)

/-- The `distances_km` array of the source: cumulative distances at
indices `0 .. steps-1`. -/
def cumulativeDistances (lats lons : List ℝ) (steps : Nat) : List ℝ :=
  (List.range steps).map (cumDistAt lats lons)

/-- Per-point local orientations (source lines 188–208): the start
point uses the bearing to point 1, interior point `i` the bearing from
point `i-1` to point `i+1`, the end point the bearing from point
`steps-2` to `steps-1`.  Array reads are index-checked (`none` models
a numpy `IndexError`), mirroring the source's fallible indexing. -/
def pointOrientations (f : ℝ → ℝ → ℝ → ℝ → ℝ) (lats lons : List ℝ) (steps : Nat) :
    Option (List ℝ) := do
  let a0 ← lats.get? 0
  let b0 ← lons.get? 0
  let a1 ← lats.get? 1
  let b1 ← lons.get? 1
  let interior ← (List.range' 1 (steps - 2)).mapM (fun i => do
    let a ← lats.get? (i - 1)
    let b ← lons.get? (i - 1)
    let c ← lats.get? (i + 1)
    let d ← lons.get? (i + 1)
    pure (f a b c d))
  let a2 ← lats.get? (steps - 2)
  let b2 ← lons.get? (steps - 2)
  let c2 ← lats.get? (steps - 1)
  let d2 ← lons.get? (steps - 1)
  pure (f a0 b0 a1 b1 :: interior ++ [f a2 b2 c2 d2])

/-- Total (default-read) form of `pointOrientations`, equal to it
whenever the path arrays have length `steps ≥ 2`. -/
def pointOrientationsTotal (f : ℝ → ℝ → ℝ → ℝ → ℝ) (lats lons : List ℝ)
    (steps : Nat) : List ℝ :=
  f (lats.getD 0 0) (lons.getD 0 0) (lats.getD 1 0) (lons.getD 1 0) ::
  (List.range' 1 (steps - 2)).map (fun i =>
    f (lats.getD (i - 1) 0) (lons.getD (i - 1) 0)
      (lats.getD (i + 1) 0) (lons.getD (i + 1) 0)) ++
  [f (lats.getD (steps - 2) 0) (lons.getD (steps - 2) 0)
     (lats.getD (steps - 1) 0) (lons.getD (steps - 1) 0)]

/-- Compass octant of the overall orientation (source lines 151–166). -/
def directionDesc (a : ℝ) : String :=
  if a < 22.5 ∨ 337.5 ≤ a then "E"
  else if 22.5 ≤ a ∧ a < 67.5 then "NE"
  else if 67.5 ≤ a ∧ a < 112.5 then "N"
  else if 112.5 ≤ a ∧ a < 157.5 then "NW"
  else if 157.5 ≤ a ∧ a < 202.5 then "W"
  else if 202.5 ≤ a ∧ a < 247.5 then "SW"
  else if 247.5 ≤ a ∧ a < 292.5 then "S"
  else "SE"

/-- Events: the major computation phases of one call, in the order the
source performs them. -/
inductive Ev
  | pathConstructed
  | distancesComputed
  | maskComputed
  | interpolationDone
deriving DecidableEq

/-- Failure modes of one call (Python exceptions). -/
inductive CrossErr
  | unknownOrientation (got : String) (accepted : List String)
  | indexOutOfBounds
  | columnStackMismatch
  | emptyReduction
  | booleanMaskMismatch
  | unknownInterpMethod (got : String)
deriving DecidableEq

/-- A coordinate array (`lons` / `lats` argument): a shape plus the
row-major flattened values (`.ravel()` order). -/
structure Arr2 where
  shape : List Nat
  values : List ℝ

/-- An attribute value; start/end attributes are 2-decimal formatted
endpoint strings in the source, abstracted here as the point itself. -/
inductive AttrVal
  | str (s : String)
  | num (x : ℝ)
  | pt (lat lon : ℝ)

/-- The input field: shape, row-major flattened values (`none` = NaN),
attributes, the physical unit when the array wraps a pint quantity
(source lines 41–42: `has_units`/`original_units`; `none` = plain
array), and the numpy invariant that the flattened length is the
product of the shape.  The `values` are the numeric magnitudes, which
is what both branches of source line 243 extract. -/
structure Field where
  shape : List Nat
  values : List (Option ℝ)
  attrs : String → Option AttrVal
  units : Option String
  sizeEq : values.length = shape.prod

/-- Product of all dimensions before the trailing two (`n_other`;
1 when there are at most two dimensions). -/
def nOther (s : List Nat) : Nat := (s.take (s.length - 2)).prod

/-- Product of the trailing (at most) two dimensions (`n_spatial`). -/
def nSpatial (s : List Nat) : Nat := (s.drop (s.length - 2)).prod

/-- `reshape(n_other, n_spatial)`: row `i` of the reshaped array. -/
def chunks (nOth nSp : Nat) (l : List α) : List (List α) :=
  (List.range nOth).map (fun i => (l.drop (i * nSp)).take nSp)

/-- Boolean-mask indexing `arr[mask]` (lengths already checked). -/
def applyMask (mask : List Bool) (l : List α) : List α :=
  ((mask.zip l).filter (fun p => p.1)).map (fun p => p.2)

/-- Column-wise minimum of a distance matrix (`min(axis=0)`). -/
def colMins : List (List ℝ) → List ℝ
  | [] => []
  | r :: rs => rs.foldl (fun acc row => acc.zipWith min row) r

/-- The flattened grid points as (lat, lon) pairs (source line 216). -/
def gridPts (lons lats : Arr2) : List (ℝ × ℝ) :=
  lats.values.zip lons.values

/-- The path-to-grid distance matrix (source lines 221–226): rows are
path points, columns are grid points. -/
def dmatOf (lons lats : Arr2) (latsPath lonsPath : List ℝ) : List (List ℝ) :=
  haversine_distance_vectorized lats.values lons.values latsPath lonsPath

/-- The spatial pre-filter keep-mask (source lines 229–231): per grid
point, minimum distance to the path is at most `buffer_km`. -/
def spatialMask (lons lats : Arr2) (latsPath lonsPath : List ℝ) (buffer_km : ℝ) :
    List Bool :=
  (colMins (dmatOf lons lats latsPath lonsPath)).map (fun d => decide (d ≤ buffer_km))

/-- An abstract scattered-data interpolator: method string, valid
points, their values, query points ↦ interpolated values (possibly NaN). -/
def GridInterp : Type :=
  String → List (ℝ × ℝ) → List ℝ → List (ℝ × ℝ) → List (Option ℝ)

/-- Whether an interpolation method string is one scipy `griddata`
accepts for 2-D data. -/
def validMethod (m : String) : Bool :=
  decide (m = "nearest" ∨ m = "linear" ∨ m = "cubic")

/-- Model of `scipy.interpolate.griddata`: rejects an unknown method
string with a ValueError naming it; otherwise applies the abstract
interpolator. -/
def griddataCall (interp : GridInterp) (method : String) (pts : List (ℝ × ℝ))
    (vals : List ℝ) (q : List (ℝ × ℝ)) : Except CrossErr (List (Option ℝ)) :=
  if validMethod method then .ok (interp method pts vals q)
  else .error (.unknownInterpMethod method)

/-- The valid source points of one slice (source lines 272–278): apply
the spatial mask to the slice values, drop NaN values, and pair each
surviving value with its (already masked) grid point. -/
def validPoints (points_filtered : List (ℝ × ℝ)) (mask : List Bool)
    (slice : List (Option ℝ)) : List ((ℝ × ℝ) × ℝ) :=
  (points_filtered.zip (applyMask mask slice)).filterMap
    (fun pv => pv.2.map (fun v => (pv.1, v)))

/-- One iteration of the slice loop (source lines 267–286).  The length
check models numpy's IndexError on a wrong-length boolean mask; an
empty valid set yields an all-NaN row and a warning flag; otherwise
`griddata` interpolates onto the path. -/
def processSlice (interp : GridInterp) (method : String)
    (points_filtered : List (ℝ × ℝ)) (mask : List Bool) (path : List (ℝ × ℝ))
    (steps : Nat) (slice : List (Option ℝ)) :
    Except CrossErr (List (Option ℝ) × Bool) :=
  if slice.length ≠ mask.length then .error .booleanMaskMismatch
  else
    let valid := validPoints points_filtered mask slice
    if valid.length = 0 then .ok (List.replicate steps none, true)
    else (griddataCall interp method (valid.map (fun p => p.1))
      (valid.map (fun p => p.2)) path).map (fun r => (r, false))

/-- The value `processSlice` returns when it does not fail. -/
def processSliceTotal (interp : GridInterp) (method : String)
    (points_filtered : List (ℝ × ℝ)) (mask : List Bool) (path : List (ℝ × ℝ))
    (steps : Nat) (slice : List (Option ℝ)) : List (Option ℝ) × Bool :=
  let valid := validPoints points_filtered mask slice
  if valid.length = 0 then (List.replicate steps none, true)
  else (interp method (valid.map (fun p => p.1)) (valid.map (fun p => p.2)) path, false)

/-- The slice loop: process each flattened non-spatial slice in order,
aborting on the first exception (Python control flow). -/
def slicesLoop (interp : GridInterp) (method : String)
    (points_filtered : List (ℝ × ℝ)) (mask : List Bool) (path : List (ℝ × ℝ))
    (steps : Nat) (slices : List (List (Option ℝ))) :
    Except CrossErr (List (List (Option ℝ) × Bool)) :=
  slices.mapM (processSlice interp method points_filtered mask path steps)

/-- `orientation_method` dispatch (source lines 141–146). -/
def selectOrientation (om : String) : Except CrossErr (ℝ → ℝ → ℝ → ℝ → ℝ) :=
  if om = "spherical" then .ok calculate_orientation_angle_spherical
  else if om = "cartesian" then .ok calculate_orientation_angle_cartesian
  else .error (.unknownOrientation om ["spherical", "cartesian"])

/-- The keys the operation writes into the result attributes. -/
def fiveKeys : List String :=
  ["cross_section_orientation_deg", "cross_section_orientation_method",
   "cross_section_direction", "cross_section_start", "cross_section_end"]

/-- The result attribute map (source lines 323–330): the input
attributes updated with the five cross-section keys. -/
def buildAttrs (base : String → Option AttrVal) (angle : ℝ) (om : String)
    (desc : String) (pStart pEnd : ℝ × ℝ) : String → Option AttrVal :=
  fun k =>
    if k = "cross_section_orientation_deg" then some (.num angle)
    else if k = "cross_section_orientation_method" then some (.str om)
    else if k = "cross_section_direction" then some (.str desc)
    else if k = "cross_section_start" then some (.pt pStart.1 pStart.2)
    else if k = "cross_section_end" then some (.pt pEnd.1 pEnd.2)
    else base k

/-- The assembled cross-section result (source lines 288–331): one row
of `steps` interpolated values per non-spatial slice, the per-slice
empty warnings, the path coordinate arrays, and the merged attributes. -/
structure CCSResult where
  rows : List (List (Option ℝ))
  warned : List Bool
  lats_path : List ℝ
  lons_path : List ℝ
  distance_km : List ℝ
  orientations : List ℝ
  attrs : String → Option AttrVal
  units : Option String

/-- Packs the slice-loop output and path data into a `CCSResult`; the
freshly built DataArray of source line 319 carries no pint unit. -/
def mkCCSResult (rw : List (List (Option ℝ) × Bool)) (lp lo dk po : List ℝ)
    (at2 : String → Option AttrVal) : CCSResult :=
  ⟨rw.map (fun p => p.1), rw.map (fun p => p.2), lp, lo, dk, po, at2, none⟩

/-- The unit-reattachment step (source lines 334–336): when the input
carried a pint unit, the result is `cross_data * original_units`.  An
xarray binary operation drops `attrs` by default (`keep_attrs=False`),
so the returned object keeps its values, coordinates and warning
bookkeeping but loses every attribute; the numeric magnitudes are
unchanged, only the unit tag is attached.  A plain input is returned
as is. -/
def applyUnits (u : Option String) (r : CCSResult) : CCSResult :=
  match u with
  | none => r
  | some uu => { r with attrs := fun _ => none, units := some uu }

/-- `custom_cross_section` (source lines 3–345), with the scattered
interpolator abstracted as `interp`.  Returns the phases performed
(in order) and either the result or the first exception, mirroring the
source's computation order: path arrays are constructed (lines 45–46)
before the `orientation_method` check (lines 141–146); cumulative
distances and per-point orientations (173–208) precede the grid
stacking (216), distance matrix and mask (221–231); the reshaped
slices are interpolated last (267–286), and a unit-carrying input gets
the unit reattached by multiplication as the final step (334–336),
which clears the assembled attributes. -/
def custom_cross_section (interp : GridInterp) (data : Field)
    (pStart pEnd : ℝ × ℝ) (lons lats : Arr2) (steps : Nat) (method : String)
    (buffer_km : ℝ) (orientation_method : String) :
    List Ev × Except CrossErr CCSResult :=
  let lats_path := linspace pStart.1 pEnd.1 steps
  let lons_path := linspace pStart.2 pEnd.2 steps
  match selectOrientation orientation_method with
  | .error e => ([.pathConstructed], .error e)
  | .ok f =>
    let orientation_angle := f pStart.1 pStart.2 pEnd.1 pEnd.2
    match pointOrientations f lats_path lons_path steps with
    | none => ([.pathConstructed, .distancesComputed], .error .indexOutOfBounds)
    | some point_orientations =>
      if lats.values.length ≠ lons.values.length then
        ([.pathConstructed, .distancesComputed], .error .columnStackMismatch)
      else if (dmatOf lons lats lats_path lons_path).length = 0 then
        ([.pathConstructed, .distancesComputed], .error .emptyReduction)
      else
        let mask := spatialMask lons lats lats_path lons_path buffer_km
        match slicesLoop interp method (applyMask mask (gridPts lons lats)) mask
            (lats_path.zip lons_path) steps
            (chunks (nOther data.shape) (nSpatial data.shape) data.values) with
        | .error e =>
            ([.pathConstructed, .distancesComputed, .maskComputed], .error e)
        | .ok rw =>
            ([.pathConstructed, .distancesComputed, .maskComputed,
              .interpolationDone],
             .ok (applyUnits data.units (mkCCSResult rw lats_path lons_path
                  (cumulativeDistances lats_path lons_path steps)
                  point_orientations
                  (buildAttrs data.attrs orientation_angle orientation_method
                    (directionDesc orientation_angle) pStart pEnd))))

/-- Whether an `Except` value is a success. -/
def exceptOk : Except CrossErr CCSResult → Bool
  | .ok _ => true
  | .error _ => false

/-- The result rows of a call, `[]` on failure. -/
def rowsOf : Except CrossErr CCSResult → List (List (Option ℝ))
  | .ok r => r.rows
  | .error _ => []

/-- Attribute lookup on the result of a call, `none` on failure. -/
def lookupAttrs : Except CrossErr CCSResult → String → Option AttrVal
  | .ok r, k => r.attrs k
  | .error _, _ => none

/-- The source's default `buffer_km` (1E99 km). -/
def bufferDefault : ℝ := 10 ^ 99

/-- A concrete interpolator standing in for `griddata`'s numeric core
in concrete test calls: value 0 at every query point. -/
def constInterp : GridInterp := fun _ _ _ q => q.map (fun _ => some 0)

/-- Concrete attributes carrying one ordinary key. -/
def exAttrs : String → Option AttrVal :=
  fun k => if k = "units" then some (.str "K") else none

/-- A concrete 2×3 single-slice field with finite values and no unit. -/
def exField23 : Field :=
  ⟨[2, 3], [some 0, some 0, some 0, some 0, some 0, some 0], exAttrs, none, by decide⟩

/-- A concrete 2×3 single-slice field that is entirely NaN. -/
def exFieldAllNaN : Field := ⟨[2, 3], List.replicate 6 none, exAttrs, none, by decide⟩

/-- A concrete 2×3 single-slice field wrapping a pint quantity (so the
`has_units` branch of the source is taken). -/
def exFieldUnits : Field :=
  ⟨[2, 3], [some 0, some 0, some 0, some 0, some 0, some 0], exAttrs, some "K",
    by decide⟩

/-- A concrete 2×3 longitude grid. -/
def exLons : Arr2 := ⟨[2, 3], [0, 1, 2, 0, 1, 2]⟩

/-- A concrete 2×3 latitude grid. -/
def exLats : Arr2 := ⟨[2, 3], [10, 10, 10, 11, 11, 11]⟩

/-- A concrete latitude grid with shape 3×2 — the transpose shape of
`exLons`, with the same flattened length 6. -/
def exLatsT : Arr2 := ⟨[3, 2], [0, 0, 1, 1, 2, 2]⟩

/-- A concrete latitude grid with only 5 flattened values. -/
def exLats5 : Arr2 := ⟨[1, 5], [0, 0, 1, 1, 2]⟩

end

/-! ### List and monad helper lemmas -/

theorem linspace_length (a b : ℝ) (steps : Nat) : (linspace a b steps).length = steps := by
  rw [linspace, List.length_map, List.length_range]

theorem get?_eq_getD {α} (l : List α) (k : Nat) (d : α) (h : k < l.length) :
    l.get? k = some (l.getD k d) := by
  induction l generalizing k with
  | nil => simp at h
  | cons x xs ih =>
    cases k with
    | zero => simp
    | succ n =>
      simp only [List.get?_cons_succ, List.getD_cons_succ]
      exact ih n (by simpa using Nat.lt_of_succ_lt_succ h)

theorem getD_range_map {α} (f : Nat → α) (n i : Nat) (d : α) (h : i < n) :
    (((List.range n).map f).getD i d) = f i := by
  rw [List.getD_eq_getElem _ _ (by simpa using h)]
  simp

theorem mapM_option_some {α β} (f : α → Option β) (g : α → β) (l : List α)
    (h : ∀ a ∈ l, f a = some (g a)) : l.mapM f = some (l.map g) := by
  induction l with
  | nil => rfl
  | cons x xs ih =>
    rw [List.mapM_cons, h x (by simp), ih (fun a ha => h a (by simp [ha]))]
    rfl

theorem mapM_except_ok {ε α β} (f : α → Except ε β) (g : α → β) (l : List α)
    (h : ∀ a ∈ l, f a = .ok (g a)) : l.mapM f = .ok (l.map g) := by
  induction l with
  | nil => rfl
  | cons x xs ih =>
    rw [List.mapM_cons, h x (by simp), ih (fun a ha => h a (by simp [ha]))]
    rfl

theorem chunks_get? {α} (nOth nSp : Nat) (l : List α) (i : Nat) (h : i < nOth) :
    (chunks nOth nSp l).get? i = some ((l.drop (i * nSp)).take nSp) := by
  rw [chunks, List.get?_eq_getElem?, List.getElem?_map, List.getElem?_range h]
  rfl

theorem length_mem_chunks {α} {nOth nSp : Nat} {l : List α}
    (h : l.length = nOth * nSp) : ∀ s ∈ chunks nOth nSp l, s.length = nSp := by
  intro s hs
  simp only [chunks, List.mem_map, List.mem_range] at hs
  obtain ⟨i, hi, rfl⟩ := hs
  have h1 : (i + 1) * nSp ≤ nOth * nSp := Nat.mul_le_mul_right nSp (by omega)
  have h2 : (i + 1) * nSp = i * nSp + nSp := by ring
  simp only [List.length_take, List.length_drop, h]
  omega

theorem mem_of_mem_chunks {α} {nOth nSp : Nat} {l : List α} {s : List α}
    (hs : s ∈ chunks nOth nSp l) : ∀ x ∈ s, x ∈ l := by
  simp only [chunks, List.mem_map, List.mem_range] at hs
  obtain ⟨i, _, rfl⟩ := hs
  intro x hx
  exact List.mem_of_mem_drop (List.mem_of_mem_take hx)

theorem foldl_zipWith_min_length (rs : List (List ℝ)) (acc : List ℝ)
    (h : ∀ r ∈ rs, r.length = acc.length) :
    (rs.foldl (fun a row => a.zipWith min row) acc).length = acc.length := by
  induction rs generalizing acc with
  | nil => rfl
  | cons r rs ih =>
    have hlen : (acc.zipWith min r).length = acc.length := by
      simp [List.length_zipWith, h r (by simp)]
    simp only [List.foldl_cons]
    rw [ih (acc.zipWith min r) (fun r' hr' => by rw [hlen]; exact h r' (by simp [hr'])), hlen]

theorem colMins_length {rows : List (List ℝ)} {n : Nat} (hne : rows ≠ [])
    (h : ∀ r ∈ rows, r.length = n) : (colMins rows).length = n := by
  match rows, hne with
  | r :: rs, _ =>
    have hr : r.length = n := h r (by simp)
    have := foldl_zipWith_min_length rs r (fun r' hr' => by rw [hr]; exact h r' (by simp [hr']))
    rw [colMins, this, hr]

/-! ### Geodesy bounds -/

theorem havExpr_nonneg (a : ℝ) : 0 ≤ 6371 * (2 * Real.arcsin (Real.sqrt a)) :=
  mul_nonneg (by norm_num)
    (mul_nonneg (by norm_num) (Real.arcsin_nonneg.mpr (Real.sqrt_nonneg a)))

theorem havExpr_le (a : ℝ) : 6371 * (2 * Real.arcsin (Real.sqrt a)) ≤ 6371 * Real.pi := by
  have h := Real.arcsin_le_pi_div_two (Real.sqrt a)
  nlinarith

theorem haversine_nonneg (lat1 lon1 lat2 lon2 : ℝ) :
    0 ≤ haversine_distance lat1 lon1 lat2 lon2 := by
  simp only [haversine_distance]
  exact havExpr_nonneg _

theorem haversine_le (lat1 lon1 lat2 lon2 : ℝ) :
    haversine_distance lat1 lon1 lat2 lon2 ≤ 6371 * Real.pi := by
  simpa [haversine_distance] using havExpr_le _

/-! ### Equivalence of the checked and total path builders -/

theorem pointOrientations_eq_total (f : ℝ → ℝ → ℝ → ℝ → ℝ) (lats lons : List ℝ)
    (steps : Nat) (h2 : 2 ≤ steps) (hl : lats.length = steps) (ho : lons.length = steps) :
    pointOrientations f lats lons steps = some (pointOrientationsTotal f lats lons steps) := by
  have ga : ∀ k, k < steps → lats.get? k = some (lats.getD k 0) :=
    fun k hk => get?_eq_getD lats k 0 (by omega)
  have gb : ∀ k, k < steps → lons.get? k = some (lons.getD k 0) :=
    fun k hk => get?_eq_getD lons k 0 (by omega)
  have hint : (List.range' 1 (steps - 2)).mapM (fun i => do
      let a ← lats.get? (i - 1)
      let b ← lons.get? (i - 1)
      let c ← lats.get? (i + 1)
      let d ← lons.get? (i + 1)
      pure (f a b c d)) = some ((List.range' 1 (steps - 2)).map (fun i =>
        f (lats.getD (i - 1) 0) (lons.getD (i - 1) 0)
          (lats.getD (i + 1) 0) (lons.getD (i + 1) 0))) := by
    apply mapM_option_some
    intro i hi
    have hmem := List.mem_range'_1.mp hi
    rw [ga (i - 1) (by omega), gb (i - 1) (by omega),
        ga (i + 1) (by omega), gb (i + 1) (by omega)]
    rfl
  rw [pointOrientations, ga 0 (by omega), gb 0 (by omega), ga 1 (by omega),
      gb 1 (by omega), hint, ga (steps - 2) (by omega), gb (steps - 2) (by omega),
      ga (steps - 1) (by omega), gb (steps - 1) (by omega)]
  rfl

/-! ### Slice-loop lemmas -/

theorem mem_of_mem_applyMask {α} {mask : List Bool} {l : List α} {x : α}
    (h : x ∈ applyMask mask l) : x ∈ l := by
  simp only [applyMask, List.mem_map, List.mem_filter] at h
  obtain ⟨p, ⟨hz, _⟩, rfl⟩ := h
  exact (List.of_mem_zip hz).2

theorem validPoints_eq_nil_of_allNone {pf : List (ℝ × ℝ)} {mask : List Bool}
    {slice : List (Option ℝ)} (hall : ∀ v ∈ slice, v = none) :
    validPoints pf mask slice = [] := by
  rw [validPoints, List.filterMap_eq_nil_iff]
  intro pv hpv
  have h2 : pv.2 ∈ applyMask mask slice := (List.of_mem_zip hpv).2
  rw [hall pv.2 (mem_of_mem_applyMask h2)]
  rfl

theorem processSlice_ok (interp : GridInterp) (method : String)
    (pf : List (ℝ × ℝ)) (mask : List Bool) (path : List (ℝ × ℝ)) (steps : Nat)
    (slice : List (Option ℝ)) (hlen : slice.length = mask.length)
    (hm : validMethod method = true) :
    processSlice interp method pf mask path steps slice =
      .ok (processSliceTotal interp method pf mask path steps slice) := by
  rw [processSlice, processSliceTotal, if_neg (by simp [hlen])]
  by_cases h : (validPoints pf mask slice).length = 0
  · rw [if_pos h, if_pos h]
  · rw [if_neg h, if_neg h, griddataCall, if_pos hm]
    rfl

theorem processSlice_allNone (interp : GridInterp) (method : String)
    (pf : List (ℝ × ℝ)) (mask : List Bool) (path : List (ℝ × ℝ)) (steps : Nat)
    (slice : List (Option ℝ)) (hlen : slice.length = mask.length)
    (hall : ∀ v ∈ slice, v = none) :
    processSlice interp method pf mask path steps slice =
        .ok (List.replicate steps none, true) ∧
      processSliceTotal interp method pf mask path steps slice =
        (List.replicate steps none, true) := by
  have hv : validPoints pf mask slice = [] := validPoints_eq_nil_of_allNone hall
  constructor
  · rw [processSlice, if_neg (by simp [hlen]), hv]
    rfl
  · rw [processSliceTotal, hv]
    rfl

/-! ### Reaching the interpolation loop: lengths of the mask and matrix -/

theorem dmat_length (lons lats : Arr2) (lp lo : List ℝ) :
    (dmatOf lons lats lp lo).length = min lp.length lo.length := by
  simp [dmatOf, haversine_distance_vectorized]

theorem dmat_rows_length (lons lats : Arr2) (lp lo : List ℝ) :
    ∀ r ∈ dmatOf lons lats lp lo, r.length = (lats.values.zip lons.values).length := by
  intro r hr
  simp only [dmatOf, haversine_distance_vectorized, List.mem_map] at hr
  obtain ⟨p, _, rfl⟩ := hr
  simp

theorem spatialMask_length (lons lats : Arr2) (lp lo : List ℝ) (buffer_km : ℝ)
    (hne : lp.zip lo ≠ []) :
    (spatialMask lons lats lp lo buffer_km).length =
      (lats.values.zip lons.values).length := by
  rw [spatialMask, List.length_map]
  apply colMins_length
  · simp only [dmatOf, haversine_distance_vectorized, ne_eq, List.map_eq_nil_iff]
    exact hne
  · exact dmat_rows_length lons lats lp lo

/-- Factorisation of the flattened length into slice count times slice
size (`reshape(n_other, n_spatial)` is always size-preserving). -/
theorem shape_prod_split (s : List Nat) : s.prod = nOther s * nSpatial s := by
  rw [nOther, nSpatial, List.prod_take_mul_prod_drop]

/-- Characterisation of a run that reaches and completes the slice
loop: if the orientation method is valid, `steps ≥ 2`, the two grid
coordinate arrays have equal flattened length, and every reshaped
slice processes without exception, the call returns all four phases
and the assembled result. -/
theorem ccs_char (interp : GridInterp) (data : Field) (pStart pEnd : ℝ × ℝ)
    (lons lats : Arr2) (steps : Nat) (method : String) (buffer_km : ℝ)
    (om : String) (f : ℝ → ℝ → ℝ → ℝ → ℝ)
    (hom : selectOrientation om = .ok f)
    (hsteps : 2 ≤ steps)
    (hgl : lats.values.length = lons.values.length)
    (hslices : ∀ s ∈ chunks (nOther data.shape) (nSpatial data.shape) data.values,
      processSlice interp method
        (applyMask (spatialMask lons lats (linspace pStart.1 pEnd.1 steps)
            (linspace pStart.2 pEnd.2 steps) buffer_km) (gridPts lons lats))
        (spatialMask lons lats (linspace pStart.1 pEnd.1 steps)
          (linspace pStart.2 pEnd.2 steps) buffer_km)
        ((linspace pStart.1 pEnd.1 steps).zip (linspace pStart.2 pEnd.2 steps)) steps s =
      .ok (processSliceTotal interp method
        (applyMask (spatialMask lons lats (linspace pStart.1 pEnd.1 steps)
            (linspace pStart.2 pEnd.2 steps) buffer_km) (gridPts lons lats))
        (spatialMask lons lats (linspace pStart.1 pEnd.1 steps)
          (linspace pStart.2 pEnd.2 steps) buffer_km)
        ((linspace pStart.1 pEnd.1 steps).zip (linspace pStart.2 pEnd.2 steps)) steps s)) :
    custom_cross_section interp data pStart pEnd lons lats steps method buffer_km om =
      ([.pathConstructed, .distancesComputed, .maskComputed, .interpolationDone],
       .ok (applyUnits data.units (mkCCSResult
        ((chunks (nOther data.shape) (nSpatial data.shape) data.values).map
          (processSliceTotal interp method
            (applyMask (spatialMask lons lats (linspace pStart.1 pEnd.1 steps)
                (linspace pStart.2 pEnd.2 steps) buffer_km) (gridPts lons lats))
            (spatialMask lons lats (linspace pStart.1 pEnd.1 steps)
              (linspace pStart.2 pEnd.2 steps) buffer_km)
            ((linspace pStart.1 pEnd.1 steps).zip (linspace pStart.2 pEnd.2 steps)) steps))
        (linspace pStart.1 pEnd.1 steps) (linspace pStart.2 pEnd.2 steps)
        (cumulativeDistances (linspace pStart.1 pEnd.1 steps)
          (linspace pStart.2 pEnd.2 steps) steps)
        (pointOrientationsTotal f (linspace pStart.1 pEnd.1 steps)
          (linspace pStart.2 pEnd.2 steps) steps)
        (buildAttrs data.attrs (f pStart.1 pStart.2 pEnd.1 pEnd.2) om
          (directionDesc (f pStart.1 pStart.2 pEnd.1 pEnd.2)) pStart pEnd)))) := by
  have hlp := linspace_length pStart.1 pEnd.1 steps
  have hlo := linspace_length pStart.2 pEnd.2 steps
  rw [custom_cross_section, hom]
  simp only
  rw [pointOrientations_eq_total f _ _ steps hsteps hlp hlo]
  simp only
  rw [if_neg (by simp [hgl]), if_neg (by rw [dmat_length, hlp, hlo]; omega),
      slicesLoop, mapM_except_ok _ _ _ hslices]

/-- The spatial mask has one entry per grid point whenever the path is
nonempty and the two coordinate arrays have equal flattened length. -/
theorem spatialMask_length_grid (pStart pEnd : ℝ × ℝ) (lons lats : Arr2)
    (steps : Nat) (buffer_km : ℝ) (hsteps : 1 ≤ steps)
    (hgl : lats.values.length = lons.values.length) :
    (spatialMask lons lats (linspace pStart.1 pEnd.1 steps)
      (linspace pStart.2 pEnd.2 steps) buffer_km).length = lats.values.length := by
  rw [spatialMask_length]
  · rw [List.length_zip, ← hgl, min_self]
  · apply List.ne_nil_of_length_pos
    rw [List.length_zip, linspace_length, linspace_length]
    omega

/-- Every slice of a well-shaped call processes without exception when
the interpolation method string is valid. -/
theorem ccs_ok (interp : GridInterp) (data : Field) (pStart pEnd : ℝ × ℝ)
    (lons lats : Arr2) (steps : Nat) (method : String) (buffer_km : ℝ)
    (om : String) (f : ℝ → ℝ → ℝ → ℝ → ℝ)
    (hom : selectOrientation om = .ok f)
    (hsteps : 2 ≤ steps)
    (hgl : lats.values.length = lons.values.length)
    (hm : validMethod method = true)
    (hsp : nSpatial data.shape = lats.values.length) :
    custom_cross_section interp data pStart pEnd lons lats steps method buffer_km om =
      ([.pathConstructed, .distancesComputed, .maskComputed, .interpolationDone],
       .ok (applyUnits data.units (mkCCSResult
        ((chunks (nOther data.shape) (nSpatial data.shape) data.values).map
          (processSliceTotal interp method
            (applyMask (spatialMask lons lats (linspace pStart.1 pEnd.1 steps)
                (linspace pStart.2 pEnd.2 steps) buffer_km) (gridPts lons lats))
            (spatialMask lons lats (linspace pStart.1 pEnd.1 steps)
              (linspace pStart.2 pEnd.2 steps) buffer_km)
            ((linspace pStart.1 pEnd.1 steps).zip (linspace pStart.2 pEnd.2 steps)) steps))
        (linspace pStart.1 pEnd.1 steps) (linspace pStart.2 pEnd.2 steps)
        (cumulativeDistances (linspace pStart.1 pEnd.1 steps)
          (linspace pStart.2 pEnd.2 steps) steps)
        (pointOrientationsTotal f (linspace pStart.1 pEnd.1 steps)
          (linspace pStart.2 pEnd.2 steps) steps)
        (buildAttrs data.attrs (f pStart.1 pStart.2 pEnd.1 pEnd.2) om
          (directionDesc (f pStart.1 pStart.2 pEnd.1 pEnd.2)) pStart pEnd)))) := by
  apply ccs_char interp data pStart pEnd lons lats steps method buffer_km om f hom hsteps hgl
  intro s hs
  have hchlen : s.length = nSpatial data.shape :=
    length_mem_chunks (by rw [data.sizeEq, shape_prod_split]) s hs
  have hmask := spatialMask_length_grid pStart pEnd lons lats steps buffer_km
    (by omega) hgl
  exact processSlice_ok _ _ _ _ _ _ _ (by rw [hchlen, hsp, hmask]) hm

/-- Every slice of a well-shaped call whose field is entirely NaN
processes without exception, whatever the method string. -/
theorem ccs_allNone (interp : GridInterp) (data : Field) (pStart pEnd : ℝ × ℝ)
    (lons lats : Arr2) (steps : Nat) (method : String) (buffer_km : ℝ)
    (om : String) (f : ℝ → ℝ → ℝ → ℝ → ℝ)
    (hom : selectOrientation om = .ok f)
    (hsteps : 2 ≤ steps)
    (hgl : lats.values.length = lons.values.length)
    (hall : ∀ v ∈ data.values, v = none)
    (hsp : nSpatial data.shape = lats.values.length) :
    exceptOk (custom_cross_section interp data pStart pEnd lons lats steps method
      buffer_km om).2 = true := by
  rw [ccs_char interp data pStart pEnd lons lats steps method buffer_km om f hom hsteps hgl]
  · rfl
  · intro s hs
    have hchlen : s.length = nSpatial data.shape :=
      length_mem_chunks (by rw [data.sizeEq, shape_prod_split]) s hs
    have hmask := spatialMask_length_grid pStart pEnd lons lats steps buffer_km
      (by omega) hgl
    have hallS : ∀ v ∈ s, v = none := fun v hv => hall v (mem_of_mem_chunks hs v hv)
    have hp := processSlice_allNone interp method
      (applyMask (spatialMask lons lats (linspace pStart.1 pEnd.1 steps)
          (linspace pStart.2 pEnd.2 steps) buffer_km) (gridPts lons lats))
      (spatialMask lons lats (linspace pStart.1 pEnd.1 steps)
        (linspace pStart.2 pEnd.2 steps) buffer_km)
      ((linspace pStart.1 pEnd.1 steps).zip (linspace pStart.2 pEnd.2 steps)) steps s
      (by rw [hchlen, hsp, hmask]) hallS
    rw [hp.1, hp.2]

/-! ### Evaluation lemmas for `atan2`, `modReal`, `degreesOf` -/

theorem atan2_zero_of_pos {x : ℝ} (h : 0 < x) : atan2 0 x = 0 := by
  rw [atan2, if_pos h, zero_div, Real.arctan_zero]

theorem atan2_zero_of_neg {x : ℝ} (h : x < 0) : atan2 0 x = Real.pi := by
  rw [atan2, if_neg (by linarith), if_pos h, if_pos le_rfl, zero_div,
    Real.arctan_zero, zero_add]

theorem atan2_pos_zero {y : ℝ} (h : 0 < y) : atan2 y 0 = Real.pi / 2 := by
  rw [atan2, if_neg (lt_irrefl 0), if_neg (lt_irrefl 0), if_pos h]

theorem atan2_neg_zero {y : ℝ} (h : y < 0) : atan2 y 0 = -(Real.pi / 2) := by
  rw [atan2, if_neg (lt_irrefl 0), if_neg (lt_irrefl 0), if_neg (by linarith),
    if_pos h]

theorem modReal_nonneg_lt (x : ℝ) : 0 ≤ modReal x 360 ∧ modReal x 360 < 360 := by
  have h1 : (⌊x / 360⌋ : ℝ) ≤ x / 360 := Int.floor_le _
  have h2 : x / 360 < ⌊x / 360⌋ + 1 := Int.lt_floor_add_one _
  have hx : 360 * (x / 360) = x := by field_simp
  rw [modReal]
  constructor <;> nlinarith [h1, h2]

theorem modReal_eq_self {x : ℝ} (h0 : 0 ≤ x) (h1 : x < 360) : modReal x 360 = x := by
  have hz : ⌊x / 360⌋ = 0 := by
    rw [Int.floor_eq_zero_iff]
    constructor
    · positivity
    · rw [div_lt_one (by norm_num)]; linarith
  rw [modReal, hz]
  push_cast
  ring

theorem modReal_of_neg {x : ℝ} (h0 : -360 ≤ x) (h1 : x < 0) :
    modReal x 360 = x + 360 := by
  have hz : ⌊x / 360⌋ = -1 := by
    rw [Int.floor_eq_iff]
    constructor
    · push_cast
      rw [le_div_iff₀ (by norm_num : (0:ℝ) < 360)]
      linarith
    · push_cast
      have : x / 360 < 0 := div_neg_of_neg_of_pos h1 (by norm_num)
      linarith
  rw [modReal, hz]
  push_cast
  ring

theorem degreesOf_zero : degreesOf 0 = 0 := by
  rw [degreesOf, zero_mul]

theorem degreesOf_pi_div_two : degreesOf (Real.pi / 2) = 90 := by
  rw [degreesOf]
  field_simp
  ring

theorem degreesOf_pi : degreesOf Real.pi = 180 := by
  rw [degreesOf]
  field_simp

theorem degreesOf_neg_pi_div_two : degreesOf (-(Real.pi / 2)) = -90 := by
  rw [degreesOf]
  field_simp
  ring

/-! ### Haversine along the equator -/

theorem abs_sin_eq_sin_abs {t : ℝ} (h : |t| ≤ Real.pi) : |Real.sin t| = Real.sin |t| := by
  rcases le_or_lt 0 t with ht | ht
  · rw [abs_of_nonneg ht, abs_of_nonneg]
    exact Real.sin_nonneg_of_nonneg_of_le_pi ht (by rwa [abs_of_nonneg ht] at h)
  · have habs : |t| = -t := abs_of_neg ht
    have hsn : 0 ≤ Real.sin (-t) := by
      apply Real.sin_nonneg_of_nonneg_of_le_pi (by linarith)
      rwa [habs] at h
    rw [habs, Real.sin_neg] at *
    rw [abs_of_nonpos (by linarith)]

theorem hav_equator (a b : ℝ) (h : |radiansOf b - radiansOf a| ≤ Real.pi) :
    haversine_distance 0 a 0 b = 6371 * |radiansOf b - radiansOf a| := by
  have hr0 : radiansOf 0 = 0 := by rw [radiansOf, zero_mul]
  have habs2 : |(radiansOf b - radiansOf a) / 2| ≤ Real.pi / 2 := by
    rw [abs_div, abs_of_nonneg (by norm_num : (0:ℝ) ≤ 2)]
    linarith
  have hle : |(radiansOf b - radiansOf a) / 2| ≤ Real.pi := by
    linarith [Real.pi_pos]
  rw [haversine_distance]
  simp only [hr0, sub_zero, zero_div, Real.sin_zero, Real.cos_zero, one_mul,
    zero_pow, zero_add, ne_eq, OfNat.ofNat_ne_zero, not_false_eq_true]
  rw [Real.sqrt_sq_eq_abs, abs_sin_eq_sin_abs hle,
    Real.arcsin_sin (by linarith [abs_nonneg ((radiansOf b - radiansOf a) / 2)]) habs2,
    abs_div, abs_of_nonneg (by norm_num : (0:ℝ) ≤ 2)]
  ring

/-! ### Cardinal-direction evaluations of the two orientation models -/

theorem radiansOf_zero : radiansOf 0 = 0 := by rw [radiansOf, zero_mul]

theorem radiansOf_one : radiansOf 1 = Real.pi / 180 := by rw [radiansOf, one_mul]

theorem radiansOf_neg_one : radiansOf (-1) = -(Real.pi / 180) := by
  rw [radiansOf]
  ring

theorem sin_one_deg_pos : 0 < Real.sin (Real.pi / 180) := by
  apply Real.sin_pos_of_pos_of_lt_pi
  · linarith [Real.pi_pos]
  · linarith [Real.pi_pos]

theorem cart_from_origin (d1 d2 : ℝ) :
    calculate_orientation_angle_cartesian 0 0 d1 d2 =
      modReal (degreesOf (atan2 d1 d2)) 360 := by
  simp [calculate_orientation_angle_cartesian]

theorem sph_from_origin (lat2 lon2 : ℝ) :
    calculate_orientation_angle_spherical 0 0 lat2 lon2 =
      modReal (90 - degreesOf (atan2 (Real.sin (radiansOf lon2) * Real.cos (radiansOf lat2))
        (Real.sin (radiansOf lat2)))) 360 := by
  simp [calculate_orientation_angle_spherical, radiansOf_zero]

theorem cart_east : calculate_orientation_angle_cartesian 0 0 0 1 = 0 := by
  rw [cart_from_origin, atan2_zero_of_pos one_pos, degreesOf_zero,
    modReal_eq_self le_rfl (by norm_num)]

theorem cart_north : calculate_orientation_angle_cartesian 0 0 1 0 = 90 := by
  rw [cart_from_origin, atan2_pos_zero one_pos, degreesOf_pi_div_two,
    modReal_eq_self (by norm_num) (by norm_num)]

theorem cart_west : calculate_orientation_angle_cartesian 0 0 0 (-1) = 180 := by
  rw [cart_from_origin, atan2_zero_of_neg (by norm_num), degreesOf_pi,
    modReal_eq_self (by norm_num) (by norm_num)]

theorem cart_south : calculate_orientation_angle_cartesian 0 0 (-1) 0 = 270 := by
  rw [cart_from_origin, atan2_neg_zero (by norm_num), degreesOf_neg_pi_div_two,
    modReal_of_neg (by norm_num) (by norm_num)]
  norm_num

theorem sph_east : calculate_orientation_angle_spherical 0 0 0 1 = 0 := by
  rw [sph_from_origin, radiansOf_zero, radiansOf_one]
  rw [Real.sin_zero, Real.cos_zero, mul_one,
    atan2_pos_zero sin_one_deg_pos, degreesOf_pi_div_two]
  norm_num
  exact modReal_eq_self le_rfl (by norm_num)

theorem sph_north : calculate_orientation_angle_spherical 0 0 1 0 = 90 := by
  rw [sph_from_origin, radiansOf_zero, radiansOf_one]
  rw [Real.sin_zero, zero_mul, atan2_zero_of_pos sin_one_deg_pos, degreesOf_zero]
  norm_num
  exact modReal_eq_self (by norm_num) (by norm_num)

theorem sph_west : calculate_orientation_angle_spherical 0 0 0 (-1) = 180 := by
  rw [sph_from_origin, radiansOf_zero, radiansOf_neg_one]
  rw [Real.sin_zero, Real.cos_zero, mul_one, Real.sin_neg,
    atan2_neg_zero (by linarith [sin_one_deg_pos]), degreesOf_neg_pi_div_two]
  norm_num
  exact modReal_eq_self (by norm_num) (by norm_num)

theorem sph_south : calculate_orientation_angle_spherical 0 0 (-1) 0 = 270 := by
  rw [sph_from_origin, radiansOf_zero, radiansOf_neg_one]
  rw [Real.sin_zero, zero_mul, Real.sin_neg,
    atan2_zero_of_neg (by linarith [sin_one_deg_pos]), degreesOf_pi]
  norm_num
  rw [modReal_of_neg (by norm_num) (by norm_num)]
  norm_num

/-- Symmetry of the haversine distance in its two points. -/
theorem haversine_comm (a b c d : ℝ) :
    haversine_distance a b c d = haversine_distance c d a b := by
  have h1 : ∀ x y : ℝ, Real.sin ((x - y) / 2) ^ 2 = Real.sin ((y - x) / 2) ^ 2 := by
    intro x y
    rw [show (x - y) / 2 = -((y - x) / 2) by ring, Real.sin_neg]
    ring
  simp only [haversine_distance]
  refine congrArg (fun t => 6371 * (2 * Real.arcsin (Real.sqrt t))) ?_
  rw [h1 (radiansOf c) (radiansOf a), h1 (radiansOf d) (radiansOf b)]
  ring

/-! ### Claim theorems -/

/-- C5: both orientation functions return 0° for due East, 90° for due
North, 180° for due West and 270° for due South (the spherical variant
evaluated on one-degree cardinal displacements from the origin), and
every value either function returns is normalised to [0, 360). -/
theorem C5_cardinal_orientations :
    calculate_orientation_angle_cartesian 0 0 0 1 = 0 ∧
    calculate_orientation_angle_cartesian 0 0 1 0 = 90 ∧
    calculate_orientation_angle_cartesian 0 0 0 (-1) = 180 ∧
    calculate_orientation_angle_cartesian 0 0 (-1) 0 = 270 ∧
    calculate_orientation_angle_spherical 0 0 0 1 = 0 ∧
    calculate_orientation_angle_spherical 0 0 1 0 = 90 ∧
    calculate_orientation_angle_spherical 0 0 0 (-1) = 180 ∧
    calculate_orientation_angle_spherical 0 0 (-1) 0 = 270 ∧
    (∀ a b c d : ℝ, 0 ≤ calculate_orientation_angle_cartesian a b c d ∧
      calculate_orientation_angle_cartesian a b c d < 360) ∧
    (∀ a b c d : ℝ, 0 ≤ calculate_orientation_angle_spherical a b c d ∧
      calculate_orientation_angle_spherical a b c d < 360) := by
  refine ⟨cart_east, cart_north, cart_west, cart_south,
    sph_east, sph_north, sph_west, sph_south, ?_, ?_⟩
  · intro a b c d
    simp only [calculate_orientation_angle_cartesian]
    exact modReal_nonneg_lt _
  · intro a b c d
    simp only [calculate_orientation_angle_spherical]
    exact modReal_nonneg_lt _

/-- C3: every (i, j) entry of the vectorized pairwise haversine matrix
(m rows over the second point set, n columns over the first) equals the
scalar haversine distance of target point i and source point j, in
either argument order, exactly over real arithmetic. -/
theorem C3_matrix_scalar_equiv (la1 lo1 la2 lo2 : List ℝ) (i j : Nat)
    (h1 : lo1.length = la1.length) (h2 : lo2.length = la2.length)
    (hi : i < la2.length) (hj : j < la1.length) :
    ((haversine_distance_vectorized la1 lo1 la2 lo2).getD i []).getD j 0 =
      haversine_distance (la1.getD j 0) (lo1.getD j 0) (la2.getD i 0) (lo2.getD i 0) ∧
    ((haversine_distance_vectorized la1 lo1 la2 lo2).getD i []).getD j 0 =
      haversine_distance (la2.getD i 0) (lo2.getD i 0) (la1.getD j 0) (lo1.getD j 0) := by
  have hi2 : i < (la2.zip lo2).length := by rw [List.length_zip, h2, min_self]; exact hi
  have hj2 : j < (la1.zip lo1).length := by rw [List.length_zip, h1, min_self]; exact hj
  have hmain : ((haversine_distance_vectorized la1 lo1 la2 lo2).getD i []).getD j 0 =
      haversine_distance (la1.getD j 0) (lo1.getD j 0) (la2.getD i 0) (lo2.getD i 0) := by
    rw [haversine_distance_vectorized]
    rw [List.getD_eq_getElem _ [] (by rw [List.length_map]; exact hi2)]
    rw [List.getElem_map]
    rw [List.getD_eq_getElem _ 0 (by rw [List.length_map]; exact hj2)]
    rw [List.getElem_map]
    rw [List.getElem_zip, List.getElem_zip]
    rw [List.getD_eq_getElem la1 0 hj, List.getD_eq_getElem lo1 0 (h1 ▸ hj),
      List.getD_eq_getElem la2 0 hi, List.getD_eq_getElem lo2 0 (h2 ▸ hi)]
    rfl
  exact ⟨hmain, hmain.trans (haversine_comm _ _ _ _)⟩

/-- Witness for C3 at a concrete pair of one-point sets. -/
theorem C3_matrix_scalar_equiv_witness :
    ((haversine_distance_vectorized [10] [20] [30] [40]).getD 0 []).getD 0 0 =
      haversine_distance ([10].getD 0 0) ([20].getD 0 0) ([30].getD 0 0) ([40].getD 0 0) ∧
    ((haversine_distance_vectorized [10] [20] [30] [40]).getD 0 []).getD 0 0 =
      haversine_distance ([30].getD 0 0) ([40].getD 0 0) ([10].getD 0 0) ([20].getD 0 0) :=
  C3_matrix_scalar_equiv [10] [20] [30] [40] 0 0 (by simp) (by simp) (by simp) (by simp)

/-- The cumulative distance is monotone in the index. -/
theorem cumDistAt_mono (lats lons : List ℝ) (i j : Nat) (h : i ≤ j) :
    cumDistAt lats lons i ≤ cumDistAt lats lons j := by
  induction j with
  | zero => simp_all
  | succ k ih =>
    rcases Nat.lt_or_ge i (k + 1) with hk | hk
    · have := ih (by omega)
      have hseg := haversine_nonneg (lats.getD k 0) (lons.getD k 0)
        (lats.getD (k + 1) 0) (lons.getD (k + 1) 0)
      rw [cumDistAt]
      linarith
    · have : i = k + 1 := by omega
      rw [this]

/-- Values of the degenerate linspace from 0 to 0. -/
theorem linspace_zero_zero (steps : Nat) (k : Nat) (hk : k < steps) :
    (linspace 0 0 steps).getD k 0 = 0 := by
  rw [linspace, getD_range_map _ _ _ _ hk]
  norm_num

/-- Values of the 11-point linspace from 0 to 10: point `k` is `k`. -/
theorem linspace_zero_ten (k : Nat) (hk : k < 11) :
    (linspace 0 10 11).getD k 0 = (k : ℝ) := by
  rw [linspace, getD_range_map _ _ _ _ hk]
  norm_num

/-- One-degree equator segments all have length `6371·π/180`. -/
theorem seg_one_degree (k : Nat) :
    haversine_distance 0 (k : ℝ) 0 ((k : ℝ) + 1) = 6371 * (Real.pi / 180) := by
  have hd : radiansOf ((k : ℝ) + 1) - radiansOf (k : ℝ) = Real.pi / 180 := by
    rw [radiansOf, radiansOf]
    ring
  have habs : |radiansOf ((k : ℝ) + 1) - radiansOf (k : ℝ)| ≤ Real.pi := by
    rw [hd, abs_of_nonneg (by positivity)]
    linarith [Real.pi_pos]
  rw [hav_equator _ _ habs, hd, abs_of_nonneg (by positivity)]

/-- Cumulative distance along the 11-point equator path from (0,0) to
(0,10): `i` one-degree segments. -/
theorem cumDist_equator (i : Nat) (hi : i ≤ 10) :
    cumDistAt (linspace 0 0 11) (linspace 0 10 11) i =
      (i : ℝ) * (6371 * (Real.pi / 180)) := by
  induction i with
  | zero => simp [cumDistAt]
  | succ k ih =>
    rw [cumDistAt, ih (by omega), linspace_zero_zero 11 k (by omega),
      linspace_zero_zero 11 (k + 1) (by omega), linspace_zero_ten k (by omega),
      linspace_zero_ten (k + 1) (by omega)]
    push_cast
    rw [seg_one_degree k]
    ring

/-- C4: for every path, the cumulative distances start at 0 and obey
the per-segment haversine recurrence, hence are non-decreasing; and the
final cumulative distance of the path built with start (0,0), end
(0,10) and 11 steps equals the direct great-circle distance between the
endpoints. -/
theorem C4_cumulative_distance :
    (∀ (slat slon elat elon : ℝ) (steps : Nat), 2 ≤ steps →
      (cumulativeDistances (linspace slat elat steps) (linspace slon elon steps)
        steps).getD 0 0 = 0 ∧
      (∀ i, 1 ≤ i → i < steps →
        (cumulativeDistances (linspace slat elat steps) (linspace slon elon steps)
          steps).getD i 0 =
        (cumulativeDistances (linspace slat elat steps) (linspace slon elon steps)
          steps).getD (i - 1) 0 +
        haversine_distance
          ((linspace slat elat steps).getD (i - 1) 0)
          ((linspace slon elon steps).getD (i - 1) 0)
          ((linspace slat elat steps).getD i 0)
          ((linspace slon elon steps).getD i 0)) ∧
      (∀ i j, i ≤ j → j < steps →
        (cumulativeDistances (linspace slat elat steps) (linspace slon elon steps)
          steps).getD i 0 ≤
        (cumulativeDistances (linspace slat elat steps) (linspace slon elon steps)
          steps).getD j 0)) ∧
    (cumulativeDistances (linspace 0 0 11) (linspace 0 10 11) 11).getD 10 0 =
      haversine_distance 0 0 0 10 := by
  constructor
  · intro slat slon elat elon steps hsteps
    refine ⟨?_, ?_, ?_⟩
    · rw [cumulativeDistances, getD_range_map _ _ _ _ (by omega)]
      rfl
    · intro i h1 h2
      rw [cumulativeDistances, getD_range_map _ _ _ _ h2,
        getD_range_map _ _ _ _ (by omega)]
      rcases i with _ | k
      · omega
      · rw [cumDistAt]
        simp
    · intro i j hij hj
      rw [cumulativeDistances, getD_range_map _ _ _ _ (by omega),
        getD_range_map _ _ _ _ hj]
      exact cumDistAt_mono _ _ i j hij
  · rw [cumulativeDistances, getD_range_map _ _ _ _ (by omega),
      cumDist_equator 10 le_rfl]
    have hd : radiansOf (10 : ℝ) - radiansOf 0 = 10 * (Real.pi / 180) := by
      rw [radiansOf, radiansOf]
      ring
    have habs : |radiansOf (10 : ℝ) - radiansOf 0| ≤ Real.pi := by
      rw [hd, abs_of_nonneg (by positivity)]
      linarith [Real.pi_pos]
    rw [hav_equator 0 10 habs, hd, abs_of_nonneg (by positivity)]
    ring

/-- Witness for C4: the start-at-zero clause at a concrete 2-step path,
plus the concrete endpoint distance clause. -/
theorem C4_cumulative_distance_witness :
    (cumulativeDistances (linspace 0 0 2) (linspace 0 1 2) 2).getD 0 0 = 0 ∧
    (cumulativeDistances (linspace 0 0 11) (linspace 0 10 11) 11).getD 10 0 =
      haversine_distance 0 0 0 10 :=
  ⟨(C4_cumulative_distance.1 0 0 0 1 2 (by norm_num)).1, C4_cumulative_distance.2⟩

/-- Entries of a pointwise-min zip are bounded by any bound on the
first list. -/
theorem mem_zipWith_min_le {C : ℝ} :
    ∀ (a b : List ℝ), (∀ x ∈ a, x ≤ C) → ∀ y ∈ List.zipWith min a b, y ≤ C := by
  intro a
  induction a with
  | nil => simp
  | cons x xs ih =>
    intro b h y hy
    cases b with
    | nil => simp at hy
    | cons z zs =>
      rcases List.mem_cons.mp hy with rfl | hy2
      · exact le_trans (min_le_left x z) (h x (by simp))
      · exact ih zs (fun u hu => h u (by simp [hu])) y hy2

theorem foldl_zipWith_min_le {C : ℝ} (rs : List (List ℝ)) :
    ∀ (acc : List ℝ), (∀ x ∈ acc, x ≤ C) →
      ∀ d ∈ rs.foldl (fun a row => a.zipWith min row) acc, d ≤ C := by
  induction rs with
  | nil => intro acc h d hd; exact h d hd
  | cons r rs ih =>
    intro acc h d hd
    exact ih (acc.zipWith min r) (mem_zipWith_min_le acc r h) d hd

theorem colMins_le {C : ℝ} (rows : List (List ℝ))
    (h : ∀ r ∈ rows, ∀ x ∈ r, x ≤ C) : ∀ d ∈ colMins rows, d ≤ C := by
  cases rows with
  | nil => simp [colMins]
  | cons r rs => exact foldl_zipWith_min_le rs r (h r (by simp))

/-- Every entry of the path-to-grid distance matrix is at most half the
Earth's circumference, `6371·π` km. -/
theorem dmat_entries_le (lons lats : Arr2) (lp lo : List ℝ) :
    ∀ r ∈ dmatOf lons lats lp lo, ∀ x ∈ r, x ≤ 6371 * Real.pi := by
  intro r hr x hx
  simp only [dmatOf, haversine_distance_vectorized, List.mem_map] at hr
  obtain ⟨p2, _, rfl⟩ := hr
  simp only [List.mem_map] at hx
  obtain ⟨p1, _, rfl⟩ := hx
  exact havExpr_le _

/-- C8: with `buffer_km` left at its default (1E99), the spatial
pre-filter retains the entire grid: every grid point's minimum
haversine distance to the path is at most the default buffer, so every
entry of the keep-mask is true. -/
theorem C8_default_buffer_keeps_all (lons lats : Arr2) (lp lo : List ℝ) :
    (∀ d ∈ colMins (dmatOf lons lats lp lo), d ≤ bufferDefault) ∧
    (spatialMask lons lats lp lo bufferDefault).all (fun b => b) = true := by
  have hb : (6371 : ℝ) * Real.pi ≤ bufferDefault := by
    have h4 : (6371 : ℝ) * Real.pi ≤ 6371 * 4 := by nlinarith [Real.pi_le_four]
    refine le_trans h4 ?_
    rw [bufferDefault]
    norm_num
  have hcm : ∀ d ∈ colMins (dmatOf lons lats lp lo), d ≤ bufferDefault :=
    fun d hd => le_trans (colMins_le _ (dmat_entries_le lons lats lp lo) d hd) hb
  refine ⟨hcm, ?_⟩
  rw [List.all_eq_true]
  intro b hb2
  simp only [spatialMask, List.mem_map] at hb2
  obtain ⟨d, hd, rfl⟩ := hb2
  simpa using hcm d hd

/-- C9: under the precondition `steps ≥ 2` and path arrays of length
`steps`, every index access of the per-point orientation computation is
in bounds, so the checked builder is total — its out-of-bounds error
branch (`none`) is unreachable. -/
theorem C9_orientation_indexing_total (f : ℝ → ℝ → ℝ → ℝ → ℝ) (lats lons : List ℝ)
    (steps : Nat) (h2 : 2 ≤ steps) (hl : lats.length = steps)
    (ho : lons.length = steps) :
    (pointOrientations f lats lons steps).isSome = true := by
  rw [pointOrientations_eq_total f lats lons steps h2 hl ho]
  rfl

/-- Witness for C9 at a concrete two-point path. -/
theorem C9_orientation_indexing_total_witness :
    (pointOrientations calculate_orientation_angle_cartesian [0, 1] [2, 3] 2).isSome =
      true :=
  C9_orientation_indexing_total calculate_orientation_angle_cartesian [0, 1] [2, 3] 2
    (by norm_num) rfl rfl

/-- C6: a slice whose valid source-point set is empty contributes an
all-NaN output row of length `steps` with its warning flag set, and the
loop still completes over all slices without raising. -/
theorem C6_empty_slice_nan_row (interp : GridInterp) (method : String)
    (pf : List (ℝ × ℝ)) (mask : List Bool) (path : List (ℝ × ℝ)) (steps : Nat)
    (slices : List (List (Option ℝ))) (idx : Nat)
    (hm : validMethod method = true)
    (hlen : ∀ s ∈ slices, s.length = mask.length)
    (hidx : idx < slices.length)
    (hempty : validPoints pf mask (slices.getD idx []) = []) :
    ∃ out, slicesLoop interp method pf mask path steps slices = .ok out ∧
      out.length = slices.length ∧
      out.get? idx = some (List.replicate steps none, true) := by
  have hall : ∀ s ∈ slices,
      processSlice interp method pf mask path steps s =
        .ok (processSliceTotal interp method pf mask path steps s) :=
    fun s hs => processSlice_ok interp method pf mask path steps s (hlen s hs) hm
  refine ⟨slices.map (processSliceTotal interp method pf mask path steps),
    mapM_except_ok _ _ _ hall, List.length_map _ _, ?_⟩
  rw [List.get?_eq_getElem?, List.getElem?_map,
    List.getElem?_eq_getElem (by simpa using hidx)]
  rw [List.getD_eq_getElem slices [] hidx] at hempty
  simp [processSliceTotal, hempty]

/-- Witness for C6: a one-slice field that is NaN at its only grid
point yields the all-NaN row and the warning flag. -/
theorem C6_empty_slice_nan_row_witness :
    ∃ out, slicesLoop constInterp "nearest" [((0 : ℝ), (0 : ℝ))] [true]
        [((0 : ℝ), (0 : ℝ))] 2 [[none]] = .ok out ∧
      out.length = [[(none : Option ℝ)]].length ∧
      out.get? 0 = some (List.replicate 2 none, true) :=
  C6_empty_slice_nan_row constInterp "nearest" [((0 : ℝ), (0 : ℝ))] [true]
    [((0 : ℝ), (0 : ℝ))] 2 [[none]] 0 (by decide)
    (by intro s hs; rw [List.mem_singleton] at hs; rw [hs]; rfl) (by norm_num) rfl

/-! ### Shape arithmetic for C7 -/

theorem nSpatial_append (lead : List Nat) (ny nx : Nat) :
    nSpatial (lead ++ [ny, nx]) = ny * nx := by
  have hl : (lead ++ [ny, nx]).length - 2 = lead.length := by
    simp [List.length_append]
  rw [nSpatial, hl, List.drop_left]
  simp

theorem nOther_append (lead : List Nat) (ny nx : Nat) :
    nOther (lead ++ [ny, nx]) = lead.prod := by
  have hl : (lead ++ [ny, nx]).length - 2 = lead.length := by
    simp [List.length_append]
  rw [nOther, hl, List.take_left]

theorem nSpatial_pair (ny nx : Nat) : nSpatial [ny, nx] = ny * nx := by
  rw [nSpatial]
  simp

theorem nOther_pair (ny nx : Nat) : nOther [ny, nx] = 1 := by
  rw [nOther]
  simp

/-- Unit reattachment does not change the interpolated rows. -/
theorem applyUnits_rows (u : Option String) (r : CCSResult) :
    (applyUnits u r).rows = r.rows := by
  cases u <;> rfl

/-- C7: the row the slice interpolator produces for slice `idx` of a
multi-slice field equals the single row produced by running the whole
operation on a field holding only that slice, with the same grid, path,
buffer and method (the scattered interpolator being a fixed function of
its inputs). -/
theorem C7_slice_independence (interp : GridInterp) (lead : List Nat) (ny nx : Nat)
    (vals vals1 : List (Option ℝ)) (at1 at2 : String → Option AttrVal)
    (u1 u2 : Option String)
    (hwf : vals.length = (lead ++ [ny, nx]).prod)
    (hwf1 : vals1.length = ([ny, nx] : List Nat).prod)
    (pStart pEnd : ℝ × ℝ) (lons lats : Arr2) (steps : Nat) (method : String)
    (buffer_km : ℝ) (om : String) (f : ℝ → ℝ → ℝ → ℝ → ℝ)
    (hom : selectOrientation om = .ok f)
    (hsteps : 2 ≤ steps)
    (hgl : lats.values.length = lons.values.length)
    (hm : validMethod method = true)
    (hsp : ny * nx = lats.values.length)
    (idx : Nat) (hidx : idx < lead.prod)
    (hv1 : vals1 = (vals.drop (idx * (ny * nx))).take (ny * nx)) :
    (rowsOf (custom_cross_section interp ⟨lead ++ [ny, nx], vals, at1, u1, hwf⟩ pStart
        pEnd lons lats steps method buffer_km om).2).get? idx =
    (rowsOf (custom_cross_section interp ⟨[ny, nx], vals1, at2, u2, hwf1⟩ pStart pEnd
        lons lats steps method buffer_km om).2).get? 0 := by
  rw [ccs_ok interp ⟨lead ++ [ny, nx], vals, at1, u1, hwf⟩ pStart pEnd lons lats steps
    method buffer_km om f hom hsteps hgl hm (by rw [nSpatial_append]; exact hsp)]
  rw [ccs_ok interp ⟨[ny, nx], vals1, at2, u2, hwf1⟩ pStart pEnd lons lats steps
    method buffer_km om f hom hsteps hgl hm (by rw [nSpatial_pair]; exact hsp)]
  simp only [rowsOf, applyUnits_rows, mkCCSResult]
  rw [nSpatial_append, nOther_append, nSpatial_pair, nOther_pair]
  rw [List.get?_eq_getElem?, List.get?_eq_getElem?, List.getElem?_map, List.getElem?_map,
    List.getElem?_map, List.getElem?_map]
  rw [show ∀ (l : List (List (Option ℝ))), l[idx]? = l.get? idx from fun l => (List.get?_eq_getElem? l idx).symm,
    show ∀ (l : List (List (Option ℝ))), l[0]? = l.get? 0 from fun l => (List.get?_eq_getElem? l 0).symm]
  rw [chunks_get? lead.prod (ny * nx) vals idx hidx,
    chunks_get? 1 (ny * nx) vals1 0 one_pos]
  rw [Nat.zero_mul, List.drop_zero, hv1, List.take_take, min_self]

/-- Witness for C7: a 2-slice field on a one-point grid; extracting
slice 1 agrees with running on the one-slice field holding its data. -/
theorem C7_slice_independence_witness :
    (rowsOf (custom_cross_section constInterp
        ⟨[2] ++ [1, 1], [some 1, some 2], exAttrs, none, by decide⟩ (0, 0) (1, 1)
        ⟨[1, 1], [5]⟩ ⟨[1, 1], [7]⟩ 2 "nearest" 100 "cartesian").2).get? 1 =
    (rowsOf (custom_cross_section constInterp
        ⟨[1, 1], [some 2], exAttrs, none, by decide⟩ (0, 0) (1, 1)
        ⟨[1, 1], [5]⟩ ⟨[1, 1], [7]⟩ 2 "nearest" 100 "cartesian").2).get? 0 :=
  C7_slice_independence constInterp [2] 1 1 [some 1, some 2] [some 2] exAttrs exAttrs
    none none (by decide) (by decide) (0, 0) (1, 1) ⟨[1, 1], [5]⟩ ⟨[1, 1], [7]⟩ 2
    "nearest" 100 "cartesian" calculate_orientation_angle_cartesian rfl (by norm_num)
    rfl (by decide) (by norm_num) 1 (by decide) rfl

/-- Counterexample to C10 as stated: for an input field that carries a
physical unit, the final unit reattachment (`cross_data *
original_units`, source line 335) drops every attribute, because an
xarray binary operation does not keep `attrs` by default — the input
attribute "units" does not survive, and even the five cross-section
keys are absent from the result. -/
theorem C10_counterexample :
    exFieldUnits.attrs "units" = some (.str "K") ∧
    lookupAttrs (custom_cross_section constInterp exFieldUnits (0, 0) (1, 1) exLons
      exLats 3 "nearest" 100 "cartesian").2 "units" = none ∧
    lookupAttrs (custom_cross_section constInterp exFieldUnits (0, 0) (1, 1) exLons
      exLats 3 "nearest" 100 "cartesian").2 "cross_section_orientation_method" =
        none := by
  refine ⟨rfl, ?_, ?_⟩ <;>
  · rw [ccs_ok constInterp exFieldUnits (0, 0) (1, 1) exLons exLats 3 "nearest" 100
      "cartesian" calculate_orientation_angle_cartesian rfl (by norm_num) rfl
      (by decide) rfl]
    rfl

/-- C10 (amended): for an input field without an attached physical
unit, every input attribute key/value pair appears unchanged in the
result's metadata except the five cross-section keys, which the
operation sets (overriding an input attribute of the same name); for a
unit-carrying input, the final unit reattachment drops all result
attributes, so no attribute (input or cross-section) survives. -/
theorem C10_attrs_preserved (interp : GridInterp) (data : Field) (pStart pEnd : ℝ × ℝ)
    (lons lats : Arr2) (steps : Nat) (method : String) (buffer_km : ℝ)
    (om : String) (f : ℝ → ℝ → ℝ → ℝ → ℝ)
    (hom : selectOrientation om = .ok f) (hsteps : 2 ≤ steps)
    (hgl : lats.values.length = lons.values.length)
    (hm : validMethod method = true)
    (hsp : nSpatial data.shape = lats.values.length) :
    (data.units = none →
      (∀ k, k ∉ fiveKeys →
        lookupAttrs (custom_cross_section interp data pStart pEnd lons lats steps method
          buffer_km om).2 k = data.attrs k) ∧
      lookupAttrs (custom_cross_section interp data pStart pEnd lons lats steps method
        buffer_km om).2 "cross_section_orientation_deg" =
          some (.num (f pStart.1 pStart.2 pEnd.1 pEnd.2)) ∧
      lookupAttrs (custom_cross_section interp data pStart pEnd lons lats steps method
        buffer_km om).2 "cross_section_orientation_method" = some (.str om) ∧
      lookupAttrs (custom_cross_section interp data pStart pEnd lons lats steps method
        buffer_km om).2 "cross_section_direction" =
          some (.str (directionDesc (f pStart.1 pStart.2 pEnd.1 pEnd.2))) ∧
      lookupAttrs (custom_cross_section interp data pStart pEnd lons lats steps method
        buffer_km om).2 "cross_section_start" = some (.pt pStart.1 pStart.2) ∧
      lookupAttrs (custom_cross_section interp data pStart pEnd lons lats steps method
        buffer_km om).2 "cross_section_end" = some (.pt pEnd.1 pEnd.2)) ∧
    (∀ u, data.units = some u →
      ∀ k, lookupAttrs (custom_cross_section interp data pStart pEnd lons lats steps
        method buffer_km om).2 k = none) := by
  rw [ccs_ok interp data pStart pEnd lons lats steps method buffer_km om f hom hsteps
    hgl hm hsp]
  constructor
  · intro hu
    rw [hu]
    refine ⟨?_, ?_, ?_, ?_, ?_, ?_⟩
    · intro k hk
      simp only [fiveKeys, List.mem_cons, List.not_mem_nil, or_false, not_or] at hk
      obtain ⟨h1, h2, h3, h4, h5⟩ := hk
      simp only [lookupAttrs, applyUnits, mkCCSResult, buildAttrs]
      rw [if_neg h1, if_neg h2, if_neg h3, if_neg h4, if_neg h5]
    · simp [lookupAttrs, applyUnits, mkCCSResult, buildAttrs]
    · simp [lookupAttrs, applyUnits, mkCCSResult, buildAttrs]
    · simp [lookupAttrs, applyUnits, mkCCSResult, buildAttrs]
    · simp [lookupAttrs, applyUnits, mkCCSResult, buildAttrs]
    · simp [lookupAttrs, applyUnits, mkCCSResult, buildAttrs]
  · intro u hu k
    rw [hu]
    simp [lookupAttrs, applyUnits, mkCCSResult]

/-- Witness for the amended C10: at a unit-less concrete call the
ordinary key "units" is preserved and the method key is set, while at a
unit-carrying concrete call the "units" attribute is gone. -/
theorem C10_attrs_preserved_witness :
    lookupAttrs (custom_cross_section constInterp exField23 (0, 0) (1, 1) exLons exLats
      3 "nearest" 100 "cartesian").2 "units" = exField23.attrs "units" ∧
    lookupAttrs (custom_cross_section constInterp exField23 (0, 0) (1, 1) exLons exLats
      3 "nearest" 100 "cartesian").2 "cross_section_orientation_method" =
        some (.str "cartesian") ∧
    lookupAttrs (custom_cross_section constInterp exFieldUnits (0, 0) (1, 1) exLons
      exLats 3 "nearest" 100 "cartesian").2 "units" = none := by
  have h := C10_attrs_preserved constInterp exField23 (0, 0) (1, 1) exLons exLats 3
    "nearest" 100 "cartesian" calculate_orientation_angle_cartesian rfl (by norm_num)
    rfl (by decide) rfl
  have h2 := C10_attrs_preserved constInterp exFieldUnits (0, 0) (1, 1) exLons exLats 3
    "nearest" 100 "cartesian" calculate_orientation_angle_cartesian rfl (by norm_num)
    rfl (by decide) rfl
  exact ⟨(h.1 rfl).1 "units" (by decide), (h.1 rfl).2.2.1, h2.2 "K" rfl "units"⟩

/-- Counterexample to C1 as stated: (i) an invalid `orientation_method`
does fail with the named configuration error, but only after the path
arrays are constructed — the phase trace already contains the
path-construction phase; (ii) an invalid interpolation `method` string
on an all-NaN field does not fail at all: the operation completes. -/
theorem C1_counterexample :
    custom_cross_section constInterp exField23 (0, 0) (1, 1) exLons exLats 3
        "nearest" 100 "bogus" =
      ([Ev.pathConstructed],
        .error (.unknownOrientation "bogus" ["spherical", "cartesian"])) ∧
    exceptOk (custom_cross_section constInterp exFieldAllNaN (0, 0) (1, 1) exLons exLats
      3 "quintic" 100 "cartesian").2 = true := by
  constructor
  · rfl
  · exact ccs_allNone constInterp exFieldAllNaN (0, 0) (1, 1) exLons exLats 3 "quintic"
      100 "cartesian" calculate_orientation_angle_cartesian rfl (by norm_num) rfl
      (fun v hv => List.eq_of_mem_replicate hv) rfl

/-- C1 (amended): an invalid `orientation_method` fails with a
configuration error naming the invalid value and the two accepted
values, after path construction but before distance computation and
interpolation; an invalid interpolation method string is not checked
up-front — it surfaces only when a slice with a nonempty valid point
set reaches its `griddata` call. -/
theorem C1_amended_config_errors :
    (∀ (interp : GridInterp) (data : Field) (pStart pEnd : ℝ × ℝ) (lons lats : Arr2)
      (steps : Nat) (method : String) (buffer_km : ℝ) (om : String),
      om ≠ "spherical" → om ≠ "cartesian" →
      custom_cross_section interp data pStart pEnd lons lats steps method buffer_km om =
        ([Ev.pathConstructed],
          .error (.unknownOrientation om ["spherical", "cartesian"]))) ∧
    (∀ (interp : GridInterp) (method : String) (pf : List (ℝ × ℝ)) (mask : List Bool)
      (path : List (ℝ × ℝ)) (steps : Nat) (slice : List (Option ℝ)),
      validMethod method = false → slice.length = mask.length →
      validPoints pf mask slice ≠ [] →
      processSlice interp method pf mask path steps slice =
        .error (.unknownInterpMethod method)) := by
  constructor
  · intro interp data pStart pEnd lons lats steps method buffer_km om h1 h2
    rw [custom_cross_section, selectOrientation, if_neg h1, if_neg h2]
  · intro interp method pf mask path steps slice hm hlen hval
    rw [processSlice, if_neg (by simp [hlen]),
      if_neg (fun h => hval (List.length_eq_zero.mp h)), griddataCall,
      if_neg (by simp [hm])]
    rfl

/-- Witness for the amended C1: both failure shapes at concrete inputs. -/
theorem C1_amended_config_errors_witness :
    custom_cross_section constInterp exField23 (1, 1) (2, 2) exLons exLats 5
        "linear" 200 "bogus" =
      ([Ev.pathConstructed],
        .error (.unknownOrientation "bogus" ["spherical", "cartesian"])) ∧
    processSlice constInterp "quintic" [((0 : ℝ), (0 : ℝ))] [true] [] 2 [some 1] =
      .error (.unknownInterpMethod "quintic") :=
  ⟨C1_amended_config_errors.1 constInterp exField23 (1, 1) (2, 2) exLons exLats 5
      "linear" 200 "bogus" (by decide) (by decide),
   C1_amended_config_errors.2 constInterp "quintic" [((0 : ℝ), (0 : ℝ))] [true] [] 2
      [some 1] (by decide) rfl
      (by rw [show validPoints [((0 : ℝ), (0 : ℝ))] [true] [some 1] =
            [(((0 : ℝ), (0 : ℝ)), (1 : ℝ))] from rfl]
          exact List.cons_ne_nil _ _)⟩

/-- Counterexample to C2 as stated: a call whose two coordinate arrays
have different shapes (2×3 versus 3×2) but the same flattened length
does not fail at all — it completes successfully. -/
theorem C2_counterexample :
    exLons.shape ≠ exLatsT.shape ∧
    exceptOk (custom_cross_section constInterp exField23 (0, 0) (1, 1) exLons exLatsT 3
      "nearest" 100 "cartesian").2 = true := by
  constructor
  · decide
  · rw [ccs_ok constInterp exField23 (0, 0) (1, 1) exLons exLatsT 3 "nearest" 100
      "cartesian" calculate_orientation_angle_cartesian rfl (by norm_num) rfl
      (by decide) rfl]
    rfl

/-- C2 (amended): no shape validation is performed.  When the two
coordinate arrays' flattened lengths differ, the grid-point stacking
fails — after path construction and distance/orientation computation,
not immediately; when the flattened lengths agree, the declared shapes
are ignored entirely, so shape-mismatched calls proceed as if the grids
matched. -/
theorem C2_amended_shape_behavior :
    (∀ (interp : GridInterp) (data : Field) (pStart pEnd : ℝ × ℝ) (lons lats : Arr2)
      (steps : Nat) (method : String) (buffer_km : ℝ) (om : String)
      (f : ℝ → ℝ → ℝ → ℝ → ℝ),
      selectOrientation om = .ok f → 2 ≤ steps →
      lats.values.length ≠ lons.values.length →
      custom_cross_section interp data pStart pEnd lons lats steps method buffer_km om =
        ([Ev.pathConstructed, Ev.distancesComputed], .error .columnStackMismatch)) ∧
    (∀ (interp : GridInterp) (data : Field) (pStart pEnd : ℝ × ℝ)
      (sh1 sh2 sh1x sh2x : List Nat) (v w : List ℝ) (steps : Nat) (method : String)
      (buffer_km : ℝ) (om : String),
      custom_cross_section interp data pStart pEnd ⟨sh1, v⟩ ⟨sh2, w⟩ steps method
        buffer_km om =
      custom_cross_section interp data pStart pEnd ⟨sh1x, v⟩ ⟨sh2x, w⟩ steps method
        buffer_km om) := by
  constructor
  · intro interp data pStart pEnd lons lats steps method buffer_km om f hom hsteps hne
    rw [custom_cross_section, hom]
    simp only
    rw [pointOrientations_eq_total f _ _ steps hsteps (linspace_length _ _ _)
      (linspace_length _ _ _)]
    simp only
    rw [if_pos hne]
  · intro interp data pStart pEnd sh1 sh2 sh1x sh2x v w steps method buffer_km om
    rfl

/-- Witness for the amended C2: a concrete length-mismatch failure and
a concrete shape-irrelevance equation. -/
theorem C2_amended_shape_behavior_witness :
    custom_cross_section constInterp exField23 (0, 0) (1, 1) exLons exLats5 3
        "nearest" 100 "cartesian" =
      ([Ev.pathConstructed, Ev.distancesComputed], .error .columnStackMismatch) ∧
    custom_cross_section constInterp exField23 (0, 0) (1, 1) ⟨[2, 3], [0, 1, 2, 0, 1, 2]⟩
        ⟨[3, 2], [0, 0, 1, 1, 2, 2]⟩ 3 "nearest" 100 "cartesian" =
      custom_cross_section constInterp exField23 (0, 0) (1, 1) ⟨[6], [0, 1, 2, 0, 1, 2]⟩
        ⟨[6], [0, 0, 1, 1, 2, 2]⟩ 3 "nearest" 100 "cartesian" :=
  ⟨C2_amended_shape_behavior.1 constInterp exField23 (0, 0) (1, 1) exLons exLats5 3
      "nearest" 100 "cartesian" calculate_orientation_angle_cartesian rfl (by norm_num)
      (by decide),
   C2_amended_shape_behavior.2 constInterp exField23 (0, 0) (1, 1) [2, 3] [3, 2] [6] [6]
      [0, 1, 2, 0, 1, 2] [0, 0, 1, 1, 2, 2] 3 "nearest" 100 "cartesian"⟩

end CrossSec
